import Mathlib

/-!
Verification of the annotation synchronization core of the
lerobot-dataset-visualizer repository: lineage resolution
(`jsonlUtils`), the pairing consistency checker
(`frame-label-panel.tsx`), the edit cache and the batch commit
protocol (`episode-viewer.tsx`).

The TypeScript sources are shallowly embedded: JSON parsing and the
network store are modelled at their interfaces, everything else is a
direct translation of the source functions.
-/

namespace LerobotViz

/-! ## Lineage metadata (`jsonlUtils`) -/

/-- Episode metadata structure from one line of `meta/episodes.jsonl`
(`EpisodeMetadata` in `jsonlUtils`).  Every field is optional at
runtime: the source guards `episode_index !== undefined` even though
the TS interface declares it required. -/
structure EpisodeMetadata where
  episode_index : Option Int
  tasks : Option (List String) := none
  len : Option Int := none
  source_episode_index : Option Int := none
  source_repo_id : Option String := none
deriving DecidableEq, Repr

/-- Parsed source repository information (`SourceInfo`). -/
structure SourceInfo where
  org : String
  dataset : String
  episode : Int
deriving DecidableEq, Repr

/-- JS `Map.prototype.get`, on an insertion-ordered association list. -/
def mapGet {α : Type} (m : List (Int × α)) (k : Int) : Option α :=
  (m.find? (fun p => p.1 == k)).map (fun p => p.2)

/-- JS `Map.prototype.set`: replace the entry in place when the key is
present, append otherwise. -/
def mapSet {α : Type} (m : List (Int × α)) (k : Int) (v : α) : List (Int × α) :=
  if m.any (fun p => p.1 == k) then
    m.map (fun p => if p.1 == k then (k, v) else p)
  else
    m ++ [(k, v)]

/-- One step of the loop body of `parseEpisodesJsonl`: a line is
represented by the result of `parseJsonlLine` on it (`none` for a
blank or malformed line, which `parseJsonlLine` turns into `null`);
lines whose metadata lacks `episode_index` are skipped. -/
def jsonlStep (m : List (Int × EpisodeMetadata)) (line : Option EpisodeMetadata) :
    List (Int × EpisodeMetadata) :=
  match line with
  | some metadata =>
    match metadata.episode_index with
    | some k => mapSet m k metadata
    | none => m
  | none => m

/-- `parseEpisodesJsonl`: fold the parsed lines of the document, in
document order, into a map keyed by `episode_index`. -/
def parseEpisodesJsonl (lines : List (Option EpisodeMetadata)) :
    List (Int × EpisodeMetadata) :=
  lines.foldl jsonlStep []

/-- The `(episode_index, metadata)` pairs contributed by the lines of a
document, in document order: exactly the lines `parseEpisodesJsonl`
does not skip. -/
def jsonlEntries (lines : List (Option EpisodeMetadata)) : List (Int × EpisodeMetadata) :=
  lines.filterMap (fun line =>
    match line with
    | some metadata =>
      match metadata.episode_index with
      | some k => some (k, metadata)
      | none => none
    | none => none)

/-- JS `String.prototype.split` with the one-character separator `"/"`,
on the character list of a string. -/
def splitSlashAux : List Char → List Char → List (List Char)
  | [], acc => [acc.reverse]
  | c :: rest, acc =>
    if c = '/' then acc.reverse :: splitSlashAux rest [] else splitSlashAux rest (c :: acc)

/-- `sourceRepoId.split("/")` of the source. -/
def splitSlash (s : String) : List String :=
  (splitSlashAux s.toList []).map (fun cs => String.mk cs)

/-- `datasetParts.join("/")` of the source. -/
def joinSlash : List String → String
  | [] => ""
  | [s] => s
  | s :: rest => s ++ "/" ++ joinSlash rest

/-- `parseSourceRepoId`: split on `"/"`; first part is the org, the
rest (re-joined) is the dataset path; `null` for a falsy input or
fewer than two parts. -/
def parseSourceRepoId (sourceRepoId : String) : Option (String × String) :=
  if sourceRepoId = "" then none
  else
    let parts := splitSlash sourceRepoId
    if parts.length < 2 then none
    else some (parts.headD "", joinSlash parts.tail)

/-- `extractSourceInfo`: look the episode up in the metadata map;
`null` when absent, when `source_repo_id` is falsy (absent or empty),
when `source_episode_index` is absent, or when `parseSourceRepoId`
fails. -/
def extractSourceInfo (episodeIndex : Int)
    (metadataMap : List (Int × EpisodeMetadata)) : Option SourceInfo :=
  match mapGet metadataMap episodeIndex with
  | none => none
  | some metadata =>
    match metadata.source_repo_id, metadata.source_episode_index with
    | some rid, some sei =>
      if rid = "" then none
      else
        match parseSourceRepoId rid with
        | none => none
        | some od => some ⟨od.1, od.2, sei⟩
    | some _, none => none
    | none, _ => none

/-! ### Association-list lemmas for the JS `Map` model -/

theorem find?_map_replace_self {α : Type} (m : List (Int × α)) (k : Int) (v : α) :
    (m.map (fun p => if p.1 == k then (k, v) else p)).find? (fun p => p.1 == k)
      = if m.any (fun p => p.1 == k) then some (k, v) else none := by
  induction m with
  | nil => simp
  | cons p rest ih =>
    cases hp : (p.1 == k) with
    | true =>
      rw [List.map_cons, if_pos hp, List.find?_cons_of_pos _ (by simp)]
      simp [List.any_cons, hp]
    | false =>
      rw [List.map_cons, if_neg (by simp [hp]),
        List.find?_cons_of_neg _ (by simp [hp]), ih, List.any_cons, hp,
        Bool.false_or]

theorem find?_map_replace_ne {α : Type} (m : List (Int × α)) (k k' : Int) (v : α)
    (hne : k' ≠ k) :
    (m.map (fun p => if p.1 == k then (k, v) else p)).find? (fun p => p.1 == k')
      = m.find? (fun p => p.1 == k') := by
  induction m with
  | nil => simp
  | cons p rest ih =>
    cases hp : (p.1 == k) with
    | true =>
      have hk : p.1 = k := by simpa using hp
      rw [List.map_cons, if_pos hp,
        List.find?_cons_of_neg _ (by simp [hne.symm]),
        List.find?_cons_of_neg _ (by simp [hk, hne.symm]), ih]
    | false =>
      rw [List.map_cons, if_neg (by simp [hp])]
      cases hpk' : (p.1 == k') with
      | true =>
        rw [List.find?_cons_of_pos (p := fun q : Int × α => q.1 == k') _ hpk',
          List.find?_cons_of_pos (p := fun q : Int × α => q.1 == k') _ hpk']
      | false =>
        rw [List.find?_cons_of_neg _ (by simp [hpk']),
          List.find?_cons_of_neg _ (by simp [hpk']), ih]

theorem mapGet_mapSet_self {α : Type} (m : List (Int × α)) (k : Int) (v : α) :
    mapGet (mapSet m k v) k = some v := by
  unfold mapGet mapSet
  by_cases h : m.any (fun p => p.1 == k)
  · rw [if_pos h, find?_map_replace_self, if_pos h]
    rfl
  · rw [if_neg h, List.find?_append]
    have hnone : (m.find? (fun p => p.1 == k)) = none := by
      rw [List.find?_eq_none]
      intro p hp hpk
      exact h (List.any_of_mem hp hpk)
    rw [hnone, List.find?_cons_of_pos _ (by simp)]
    rfl

theorem mapGet_mapSet_ne {α : Type} (m : List (Int × α)) (k k' : Int) (v : α)
    (hne : k' ≠ k) : mapGet (mapSet m k v) k' = mapGet m k' := by
  unfold mapGet mapSet
  by_cases h : m.any (fun p => p.1 == k)
  · rw [if_pos h, find?_map_replace_ne _ _ _ _ hne]
  · rw [if_neg h, List.find?_append]
    have hsingle : List.find? (fun p => p.1 == k') [(k, v)] = none := by
      rw [List.find?_eq_none]
      intro p hp hpk
      have hp' : p = (k, v) := by simpa using hp
      subst hp'
      have hk : k = k' := by simpa using hpk
      exact hne hk.symm
    rw [hsingle]
    simp

/-! ## Pairing consistency checker (`frame-label-panel.tsx`) -/

/-- `FrameLabel` as exported by `frame-label-panel.tsx`: the per-frame
draft record of the edit cache. -/
structure FrameLabel where
  frameIdx : Int
  labellerId : String
  phaseTag : Option String
  issueTags : List String
  notes : String
  updatedAt : Option String
deriving DecidableEq, Repr

/-- The configured `PAIRED_ISSUE_TAGS` table, as `(tagA, tagB)` =
(issue tag, recovery tag) pairs in source order. -/
def pairedIssueTags : List (String × String) :=
  [("left_arm_missed", "left_arm_recovery"),
   ("right_arm_missed", "right_arm_recovery"),
   ("left_arm_litter_stuck_gripper", "left_arm_recovery"),
   ("right_arm_litter_stuck_gripper", "right_arm_recovery"),
   ("left_arm_litter_dropped", "left_arm_recovery"),
   ("right_arm_litter_dropped", "right_arm_recovery")]

/-- The `recoveryGroups` map built at the top of
`checkPairedIssueTags`: issue tags grouped by their shared recovery
tag, in first-encounter insertion order. -/
def buildRecoveryGroups : List (String × List String) :=
  pairedIssueTags.foldl
    (fun groups pair =>
      if groups.any (fun g => g.1 == pair.2) then
        groups.map (fun g => if g.1 == pair.2 then (g.1, g.2 ++ [pair.1]) else g)
      else
        groups ++ [(pair.2, [pair.1])])
    []

/-- `allLabels.filter(l => l.issueTags.includes(tag)).length`. -/
def countFramesWithTag (allLabels : List FrameLabel) (tag : String) : Nat :=
  (allLabels.filter (fun l => tag ∈ l.issueTags)).length

/-- The `issueCounts` record of one recovery group: the issue tags of
the group with a strictly positive frame count, with their counts, in
group order. -/
def groupIssueCounts (allLabels : List FrameLabel) (issueTags : List String) :
    List (String × Nat) :=
  issueTags.foldl
    (fun acc tag =>
      let count := countFramesWithTag allLabels tag
      if count > 0 then acc ++ [(tag, count)] else acc)
    []

/-- The warning text pushed for one unbalanced recovery group. -/
def pairWarningText (allLabels : List FrameLabel) (g : String × List String) : String :=
  let issueCounts := groupIssueCounts allLabels g.2
  let totalIssueFrames := (issueCounts.map (fun p => p.2)).sum
  let recoveryCount := countFramesWithTag allLabels g.1
  joinSlash (issueCounts.map (fun p => p.1)) ++ " (" ++ toString totalIssueFrames
    ++ "×) should match " ++ g.1 ++ " (" ++ toString recoveryCount ++ "×)"

/-- Whether `checkPairedIssueTags` warns for one recovery group:
`totalIssueFrames !== recoveryCount && totalIssueFrames > 0`. -/
def groupUnbalanced (allLabels : List FrameLabel) (g : String × List String) : Bool :=
  let totalIssueFrames := ((groupIssueCounts allLabels g.2).map (fun p => p.2)).sum
  totalIssueFrames != countFramesWithTag allLabels g.1 && totalIssueFrames > 0

/-- `checkPairedIssueTags`: walk the recovery groups in insertion
order, pushing one warning for each unbalanced group. -/
def checkPairedIssueTags (allLabels : List FrameLabel) : List String :=
  buildRecoveryGroups.foldl
    (fun warnings g =>
      if groupUnbalanced allLabels g then warnings ++ [pairWarningText allLabels g]
      else warnings)
    []

/-! ## Edit cache (`episode-viewer.tsx` state) -/

/-- `EpisodeLabel` of `episode-label-panel.tsx`: the episode-level
draft record. -/
structure EpisodeLabel where
  orgId : String
  datasetId : String
  episodeId : String
  labellerId : String
  qualityTag : Option String
  keyNotes : List String
  litterItems : List (String × Int)
  armsUsed : Option String
  remarks : String
  updatedAt : Option String
deriving DecidableEq, Repr

/-- The edit-cache slice of `EpisodeViewerInner` React state: the
episode draft, the frame drafts, the dirty flag and the pending
deletion set (an insertion-ordered set of frame indices). -/
structure ViewerState where
  episodeLabel : Option EpisodeLabel
  frameLabels : List FrameLabel
  hasUnsavedChanges : Bool
  deletedFrameIndices : List Int
deriving DecidableEq, Repr

/-- The `onFrameLabelSave` callback wired into `PlaybackBar`: replace
the draft with the same `frameIdx` if one exists (else append), and
mark dirty.  The pending-deletion set is not touched. -/
def onFrameLabelSave (label : FrameLabel) (st : ViewerState) : ViewerState :=
  let prev := st.frameLabels
  let updated :=
    match prev.findIdx? (fun l => l.frameIdx == label.frameIdx) with
    | none => prev ++ [label]
    | some idx => prev.set idx label
  { st with frameLabels := updated, hasUnsavedChanges := true }

/-- The `onFrameLabelDelete` callback: drop the draft, add the index
to the pending-deletion set (`new Set(prev).add(frameIdx)`), and mark
dirty. -/
def onFrameLabelDelete (frameIdx : Int) (st : ViewerState) : ViewerState :=
  { st with
    frameLabels := st.frameLabels.filter (fun l => l.frameIdx != frameIdx),
    deletedFrameIndices :=
      if frameIdx ∈ st.deletedFrameIndices then st.deletedFrameIndices
      else st.deletedFrameIndices ++ [frameIdx],
    hasUnsavedChanges := true }

/-- The pairing warnings held in viewer state: `PlaybackBar` passes
the viewer's live `frameLabels` as the panel's `initialLabels` prop,
the panel memoizes `checkPairedIssueTags` over that prop and lifts the
result through `onPairingWarningsChange`. -/
def viewerPairingWarnings (st : ViewerState) : List String :=
  checkPairedIssueTags st.frameLabels

/-! ## Batch commit protocol (`handleSaveAllLabels`) -/

/-- The four network steps of `handleSaveAllLabels`, in source
order. -/
inductive CommitStep
  | labellerUpsert
  | frameDelete
  | episodeUpsert
  | frameUpsert
deriving DecidableEq, Repr

/-- Failure injection for the annotation store: which of the four
steps errors when issued. -/
structure StepFailures where
  labellerUpsert : Bool
  frameDelete : Bool
  episodeUpsert : Bool
  frameUpsert : Bool
deriving DecidableEq, Repr

/-- The all-steps-succeed store behaviour. -/
def noFailures : StepFailures := ⟨false, false, false, false⟩

/-- A row of the `frame_labels` table for the committed episode
(org/dataset/episode columns are fixed by the commit and omitted). -/
structure FrameRow where
  frame_idx : Int
  labeller_id : String
  phase_tag : Option String
  issue_tags : List String
  notes : String
  updated_at : String
deriving DecidableEq, Repr

/-- A row of the `episode_labels` table for the committed episode.
`litter_items = none` is the SQL `null` the source substitutes for an
empty quantity map. -/
structure EpisodeRow where
  labeller_id : String
  quality_tag : Option String
  key_notes : List String
  litter_items : Option (List (String × Int))
  arms_used : Option String
  remarks : String
  updated_at : String
deriving DecidableEq, Repr

/-- JS `label.updatedAt || new Date().toISOString()`: the stored
timestamp, with `now` standing for the clock read. -/
def orNow (updatedAt : Option String) (now : String) : String :=
  match updatedAt with
  | some s => if s = "" then now else s
  | none => now

/-- The `frameRows` element built for one frame draft in step 4. -/
def frameRowOf (now : String) (label : FrameLabel) : FrameRow :=
  ⟨label.frameIdx, label.labellerId, label.phaseTag, label.issueTags,
    label.notes, orNow label.updatedAt now⟩

/-- `litterItemsFiltered`: keep only the entries with `qty > 0`. -/
def litterItemsFiltered (items : List (String × Int)) : List (String × Int) :=
  items.filter (fun p => p.2 > 0)

/-- `litterItemsToSave`: the filtered map, or `null` when it is
empty. -/
def litterItemsToSave (items : List (String × Int)) : Option (List (String × Int)) :=
  let filtered := litterItemsFiltered items
  if filtered.length > 0 then some filtered else none

/-- The `episodeData` record upserted in step 3. -/
def episodeRowOf (labellerId now : String) (label : EpisodeLabel) : EpisodeRow :=
  ⟨labellerId, label.qualityTag, label.keyNotes, litterItemsToSave label.litterItems,
    label.armsUsed, label.remarks, orNow label.updatedAt now⟩

/-- Step 2's bulk delete on `frame_labels`: rows of this labeller
whose `frame_idx` is in the deletion set are removed. -/
def deleteFrameRows (labellerId : String) (idxs : List Int) (store : List FrameRow) :
    List FrameRow :=
  store.filter (fun r => !(r.labeller_id == labellerId && r.frame_idx ∈ idxs))

/-- Upsert of one row with conflict key `frame_idx` (org, dataset and
episode are fixed): replace on identity match, insert otherwise. -/
def upsertFrameRow (store : List FrameRow) (row : FrameRow) : List FrameRow :=
  if store.any (fun r => r.frame_idx == row.frame_idx) then
    store.map (fun r => if r.frame_idx == row.frame_idx then row else r)
  else
    store ++ [row]

/-- Step 4's bulk upsert of all frame rows. -/
def upsertFrameRows (rows : List FrameRow) (store : List FrameRow) : List FrameRow :=
  rows.foldl upsertFrameRow store

/-- Point lookup in the frame store by `frame_idx`. -/
def frameStoreGet (store : List FrameRow) (k : Int) : Option FrameRow :=
  store.find? (fun r => r.frame_idx == k)

/-- The state reset of step 5 on success: clear the dirty flag and the
deletion set; drafts are kept as the new committed baseline. -/
def commitSuccessState (st : ViewerState) : ViewerState :=
  { st with hasUnsavedChanges := false, deletedFrameIndices := [] }

/-- Observable outcome of one `handleSaveAllLabels` run: the React
state afterwards, both store tables, the steps whose network request
was issued, and the step whose error was thrown into the `catch`
block (`none` on success). -/
structure CommitResult where
  state : ViewerState
  frameStore : List FrameRow
  episodeStore : Option EpisodeRow
  issued : List CommitStep
  errorStep : Option CommitStep
deriving DecidableEq, Repr

/-- Step 4 of `handleSaveAllLabels` (and step 5 on success): upsert
all frame drafts when there are any, then reset the dirty state. -/
def commitFrames (now : String) (fail : StepFailures) (st : ViewerState)
    (frameStore : List FrameRow) (episodeStore : Option EpisodeRow)
    (issued : List CommitStep) : CommitResult :=
  if st.frameLabels.length > 0 then
    let issued4 := issued ++ [CommitStep.frameUpsert]
    if fail.frameUpsert then
      ⟨st, frameStore, episodeStore, issued4, some CommitStep.frameUpsert⟩
    else
      ⟨commitSuccessState st,
        upsertFrameRows (st.frameLabels.map (frameRowOf now)) frameStore,
        episodeStore, issued4, none⟩
  else
    ⟨commitSuccessState st, frameStore, episodeStore, issued, none⟩

/-- Step 3 of `handleSaveAllLabels`: upsert the episode draft when one
exists, then continue with step 4. -/
def commitEpisode (labellerId now : String) (fail : StepFailures) (st : ViewerState)
    (frameStore : List FrameRow) (episodeStore : Option EpisodeRow)
    (issued : List CommitStep) : CommitResult :=
  match st.episodeLabel with
  | some label =>
    let issued3 := issued ++ [CommitStep.episodeUpsert]
    if fail.episodeUpsert then
      ⟨st, frameStore, episodeStore, issued3, some CommitStep.episodeUpsert⟩
    else
      commitFrames now fail st frameStore (some (episodeRowOf labellerId now label)) issued3
  | none => commitFrames now fail st frameStore episodeStore issued

/-- `handleSaveAllLabels`: the batch commit.  Step 1 upserts the
labeller registry row but the source discards the result object, so a
failure of that step is never observed; step 2's bulk delete runs only
when the deletion set is non-empty and throws on error, aborting the
remaining steps; the `catch` block changes no edit-cache state. -/
def handleSaveAllLabels (labellerId now : String) (fail : StepFailures)
    (st : ViewerState) (frameStore : List FrameRow)
    (episodeStore : Option EpisodeRow) : CommitResult :=
  let issued1 : List CommitStep := [CommitStep.labellerUpsert]
  if st.deletedFrameIndices.length > 0 then
    let issued2 := issued1 ++ [CommitStep.frameDelete]
    if fail.frameDelete then
      ⟨st, frameStore, episodeStore, issued2, some CommitStep.frameDelete⟩
    else
      commitEpisode labellerId now fail st
        (deleteFrameRows labellerId st.deletedFrameIndices frameStore)
        episodeStore issued2
  else
    commitEpisode labellerId now fail st frameStore episodeStore issued1

/-! ## Helper lemmas -/

theorem foldl_push_filterMap {α β : Type} (P : α → Bool) (f : α → β) :
    ∀ (l : List α) (acc : List β),
      l.foldl (fun w g => if P g then w ++ [f g] else w) acc
        = acc ++ (l.filter P).map f := by
  intro l
  induction l with
  | nil => intro acc; simp
  | cons x xs ih =>
    intro acc
    by_cases hx : P x
    · simp [List.foldl_cons, hx, ih, List.filter_cons]
    · simp [List.foldl_cons, hx, ih, List.filter_cons]

theorem groupIssueCounts_sum_aux (ls : List FrameLabel) :
    ∀ (tags : List String) (acc : List (String × Nat)),
      ((tags.foldl
          (fun acc tag =>
            let count := countFramesWithTag ls tag
            if count > 0 then acc ++ [(tag, count)] else acc)
          acc).map (fun p => p.2)).sum
        = ((acc.map (fun p => p.2)).sum + (tags.map (countFramesWithTag ls)).sum) := by
  intro tags
  induction tags with
  | nil => intro acc; simp
  | cons t ts ih =>
    intro acc
    rw [List.foldl_cons]
    by_cases hc : countFramesWithTag ls t > 0
    · simp only [hc, if_pos]
      rw [ih]
      simp
      omega
    · simp only [hc, if_neg]
      rw [ih]
      have hz : countFramesWithTag ls t = 0 := by omega
      simp [hz]

theorem groupIssueCounts_sum (ls : List FrameLabel) (tags : List String) :
    ((groupIssueCounts ls tags).map (fun p => p.2)).sum
      = (tags.map (countFramesWithTag ls)).sum := by
  unfold groupIssueCounts
  rw [groupIssueCounts_sum_aux]
  simp

/-! ## Claim theorems -/

/-- C5: `checkPairedIssueTags` groups issue tags by their shared
recovery tag, sums the per-tag frame counts within each group, counts
frames carrying the recovery tag, and emits exactly one warning per
group iff the summed issue count is nonzero and differs from the
recovery count; two `left_arm_missed` frames against one
`left_arm_recovery` frame give exactly the warning
`left_arm_missed (2×) should match left_arm_recovery (1×)`, and equal
counts give no warning. -/
theorem checkPairedIssueTags_spec :
    (∀ ls, checkPairedIssueTags ls
        = (buildRecoveryGroups.filter (groupUnbalanced ls)).map (pairWarningText ls)) ∧
    (∀ ls g, groupUnbalanced ls g = true ↔
        ((g.2.map (countFramesWithTag ls)).sum ≠ countFramesWithTag ls g.1
          ∧ 0 < (g.2.map (countFramesWithTag ls)).sum)) ∧
    checkPairedIssueTags
        [⟨0, "lab", none, ["left_arm_missed"], "", none⟩,
         ⟨1, "lab", none, ["left_arm_missed"], "", none⟩,
         ⟨2, "lab", none, ["left_arm_recovery"], "", none⟩]
      = ["left_arm_missed (2×) should match left_arm_recovery (1×)"] ∧
    checkPairedIssueTags
        [⟨0, "lab", none, ["left_arm_missed"], "", none⟩,
         ⟨2, "lab", none, ["left_arm_recovery"], "", none⟩]
      = [] := by
  refine ⟨?_, ?_, by decide, by decide⟩
  · intro ls
    unfold checkPairedIssueTags
    exact foldl_push_filterMap (groupUnbalanced ls) (pairWarningText ls) buildRecoveryGroups []
  · intro ls g
    unfold groupUnbalanced
    rw [Bool.and_eq_true, bne_iff_ne, decide_eq_true_iff, groupIssueCounts_sum]

/-- C6 (code divergence): the pairing warnings are recomputed from the
viewer's live `frameLabels` working copy — an uncommitted
`onFrameLabelSave` edit on a session whose committed frame set is
empty changes the warning list from `[]` to a non-empty one, contrary
to the claim (and the panel's own comment) that warnings derive only
from the last committed frame set. -/
theorem pairingWarnings_change_on_uncommitted_edit :
    viewerPairingWarnings ⟨none, [], false, []⟩ = [] ∧
    viewerPairingWarnings
        (onFrameLabelSave ⟨0, "lab", none, ["left_arm_missed"], "", none⟩
          ⟨none, [], false, []⟩)
      = ["left_arm_missed (1×) should match left_arm_recovery (0×)"] := by
  decide

/-- C2 (counterexample): after `deleteFrame 5` followed by an edit of
frame 5, the pending-deletion set still contains 5 and the frame-draft
mapping contains a draft for 5, so the edit did not un-delete and the
two key sets overlap. -/
theorem frame_edit_undelete_cex :
    5 ∈ (onFrameLabelSave ⟨5, "lab", none, [], "note", none⟩
          (onFrameLabelDelete 5 ⟨none, [], false, []⟩)).deletedFrameIndices ∧
    5 ∈ ((onFrameLabelSave ⟨5, "lab", none, [], "note", none⟩
          (onFrameLabelDelete 5 ⟨none, [], false, []⟩)).frameLabels.map
            (fun l => l.frameIdx)) := by
  decide

/-- C2 (amended): `onFrameLabelSave` never touches the
pending-deletion set — an edit of frame `i` leaves
`deletedFrameIndices` exactly as it was, so an edit after a delete
leaves `i` in both the deletion set and the draft mapping. -/
theorem onFrameLabelSave_keeps_deletions (label : FrameLabel) (st : ViewerState) :
    (onFrameLabelSave label st).deletedFrameIndices = st.deletedFrameIndices := rfl

/-- C4 (counterexample): with only the labeller-registry upsert
failing, the commit still issues the frame deletion and the frame
upsert, mutates the frame store (row 7 deleted, row 3 written) and
reports success — annotation data is touched although step 1
failed. -/
theorem labellerUpsert_failure_cex :
    (handleSaveAllLabels "lab" "t0" ⟨true, false, false, false⟩
        ⟨none, [⟨3, "lab", none, [], "n", none⟩], true, [7]⟩
        [⟨7, "lab", none, [], "old", "t"⟩] none).issued
      = [CommitStep.labellerUpsert, CommitStep.frameDelete, CommitStep.frameUpsert] ∧
    (handleSaveAllLabels "lab" "t0" ⟨true, false, false, false⟩
        ⟨none, [⟨3, "lab", none, [], "n", none⟩], true, [7]⟩
        [⟨7, "lab", none, [], "old", "t"⟩] none).frameStore
      = [⟨3, "lab", none, [], "n", "t0"⟩] ∧
    (handleSaveAllLabels "lab" "t0" ⟨true, false, false, false⟩
        ⟨none, [⟨3, "lab", none, [], "n", none⟩], true, [7]⟩
        [⟨7, "lab", none, [], "old", "t"⟩] none).errorStep = none := by
  decide

/-- C4 (amended): the result of the labeller-registry upsert is
discarded by the source, so the whole commit outcome — state, stores,
issued steps and error — is identical whether or not step 1 fails;
step 1 never aborts the commit. -/
theorem labellerUpsert_failure_ignored (labellerId now : String) (fail : StepFailures)
    (st : ViewerState) (fs : List FrameRow) (es : Option EpisodeRow) :
    handleSaveAllLabels labellerId now { fail with labellerUpsert := true } st fs es
      = handleSaveAllLabels labellerId now { fail with labellerUpsert := false } st fs es :=
  rfl

/-- Position of a commit step in the fixed step order of
`handleSaveAllLabels`. -/
def stepIndex : CommitStep → Nat
  | .labellerUpsert => 1
  | .frameDelete => 2
  | .episodeUpsert => 3
  | .frameUpsert => 4

theorem commitFrames_eq_fail (now : String) (fail : StepFailures) (st : ViewerState)
    (fs : List FrameRow) (es : Option EpisodeRow) (issued : List CommitStep)
    (hl : st.frameLabels.length > 0) (hf : fail.frameUpsert = true) :
    commitFrames now fail st fs es issued
      = ⟨st, fs, es, issued ++ [CommitStep.frameUpsert], some CommitStep.frameUpsert⟩ := by
  unfold commitFrames
  rw [if_pos hl]
  exact if_pos hf

theorem commitFrames_eq_ok (now : String) (fail : StepFailures) (st : ViewerState)
    (fs : List FrameRow) (es : Option EpisodeRow) (issued : List CommitStep)
    (hl : st.frameLabels.length > 0) (hf : fail.frameUpsert = false) :
    commitFrames now fail st fs es issued
      = ⟨commitSuccessState st, upsertFrameRows (st.frameLabels.map (frameRowOf now)) fs,
          es, issued ++ [CommitStep.frameUpsert], none⟩ := by
  unfold commitFrames
  rw [if_pos hl]
  exact if_neg (by simp [hf])

theorem commitFrames_eq_empty (now : String) (fail : StepFailures) (st : ViewerState)
    (fs : List FrameRow) (es : Option EpisodeRow) (issued : List CommitStep)
    (hl : ¬ st.frameLabels.length > 0) :
    commitFrames now fail st fs es issued
      = ⟨commitSuccessState st, fs, es, issued, none⟩ := by
  unfold commitFrames
  exact if_neg hl

theorem commitEpisode_eq_none (labellerId now : String) (fail : StepFailures)
    (st : ViewerState) (fs : List FrameRow) (es : Option EpisodeRow)
    (issued : List CommitStep) (hE : st.episodeLabel = none) :
    commitEpisode labellerId now fail st fs es issued
      = commitFrames now fail st fs es issued := by
  unfold commitEpisode
  rw [hE]

theorem commitEpisode_eq_some_fail (labellerId now : String) (fail : StepFailures)
    (st : ViewerState) (fs : List FrameRow) (es : Option EpisodeRow)
    (issued : List CommitStep) (lbl : EpisodeLabel)
    (hE : st.episodeLabel = some lbl) (hfe : fail.episodeUpsert = true) :
    commitEpisode labellerId now fail st fs es issued
      = ⟨st, fs, es, issued ++ [CommitStep.episodeUpsert], some CommitStep.episodeUpsert⟩ := by
  unfold commitEpisode
  rw [hE]
  exact if_pos hfe

theorem commitEpisode_eq_some_ok (labellerId now : String) (fail : StepFailures)
    (st : ViewerState) (fs : List FrameRow) (es : Option EpisodeRow)
    (issued : List CommitStep) (lbl : EpisodeLabel)
    (hE : st.episodeLabel = some lbl) (hfe : fail.episodeUpsert = false) :
    commitEpisode labellerId now fail st fs es issued
      = commitFrames now fail st fs (some (episodeRowOf labellerId now lbl))
          (issued ++ [CommitStep.episodeUpsert]) := by
  unfold commitEpisode
  rw [hE]
  exact if_neg (by simp [hfe])

theorem handleSave_eq_delete_fail (labellerId now : String) (fail : StepFailures)
    (st : ViewerState) (fs : List FrameRow) (es : Option EpisodeRow)
    (hd : st.deletedFrameIndices.length > 0) (hf : fail.frameDelete = true) :
    handleSaveAllLabels labellerId now fail st fs es
      = ⟨st, fs, es, [CommitStep.labellerUpsert, CommitStep.frameDelete],
          some CommitStep.frameDelete⟩ := by
  unfold handleSaveAllLabels
  rw [if_pos hd]
  exact if_pos hf

theorem handleSave_eq_deleted (labellerId now : String) (fail : StepFailures)
    (st : ViewerState) (fs : List FrameRow) (es : Option EpisodeRow)
    (hd : st.deletedFrameIndices.length > 0) (hf : fail.frameDelete = false) :
    handleSaveAllLabels labellerId now fail st fs es
      = commitEpisode labellerId now fail st
          (deleteFrameRows labellerId st.deletedFrameIndices fs) es
          [CommitStep.labellerUpsert, CommitStep.frameDelete] := by
  unfold handleSaveAllLabels
  rw [if_pos hd]
  exact if_neg (by simp [hf])

theorem handleSave_eq_nodelete (labellerId now : String) (fail : StepFailures)
    (st : ViewerState) (fs : List FrameRow) (es : Option EpisodeRow)
    (hd : ¬ st.deletedFrameIndices.length > 0) :
    handleSaveAllLabels labellerId now fail st fs es
      = commitEpisode labellerId now fail st fs es [CommitStep.labellerUpsert] := by
  unfold handleSaveAllLabels
  exact if_neg hd

theorem commitFrames_errorStep (now : String) (fail : StepFailures) (st : ViewerState)
    (fs : List FrameRow) (es : Option EpisodeRow) (issued : List CommitStep)
    (s : CommitStep) (h : (commitFrames now fail st fs es issued).errorStep = some s) :
    (commitFrames now fail st fs es issued).state = st ∧ s = CommitStep.frameUpsert ∧
    (commitFrames now fail st fs es issued).issued = issued ++ [CommitStep.frameUpsert] := by
  by_cases hl : st.frameLabels.length > 0
  · by_cases hf : fail.frameUpsert = true
    · rw [commitFrames_eq_fail now fail st fs es issued hl hf] at h ⊢
      have hs : s = CommitStep.frameUpsert := by
        injection h with h''
        exact h''.symm
      exact ⟨rfl, hs, rfl⟩
    · have hf' : fail.frameUpsert = false := Bool.eq_false_iff.mpr hf
      rw [commitFrames_eq_ok now fail st fs es issued hl hf'] at h
      exact Option.noConfusion h
  · rw [commitFrames_eq_empty now fail st fs es issued hl] at h
    exact Option.noConfusion h

theorem commitEpisode_errorStep (labellerId now : String) (fail : StepFailures)
    (st : ViewerState) (fs : List FrameRow) (es : Option EpisodeRow)
    (issued : List CommitStep) (s : CommitStep)
    (h : (commitEpisode labellerId now fail st fs es issued).errorStep = some s) :
    (commitEpisode labellerId now fail st fs es issued).state = st ∧
    ((s = CommitStep.episodeUpsert ∧
        (commitEpisode labellerId now fail st fs es issued).issued
          = issued ++ [CommitStep.episodeUpsert]) ∨
     (s = CommitStep.frameUpsert ∧
        ((commitEpisode labellerId now fail st fs es issued).issued
            = issued ++ [CommitStep.frameUpsert] ∨
         (commitEpisode labellerId now fail st fs es issued).issued
            = (issued ++ [CommitStep.episodeUpsert]) ++ [CommitStep.frameUpsert]))) := by
  cases hE : st.episodeLabel with
  | none =>
    rw [commitEpisode_eq_none labellerId now fail st fs es issued hE] at h ⊢
    obtain ⟨h1, h2, h3⟩ := commitFrames_errorStep now fail st fs es issued s h
    exact ⟨h1, Or.inr ⟨h2, Or.inl h3⟩⟩
  | some label =>
    by_cases hfe : fail.episodeUpsert = true
    · rw [commitEpisode_eq_some_fail labellerId now fail st fs es issued label hE hfe]
        at h ⊢
      have hs : s = CommitStep.episodeUpsert := by
        injection h with h''
        exact h''.symm
      exact ⟨rfl, Or.inl ⟨hs, rfl⟩⟩
    · have hfe' : fail.episodeUpsert = false := Bool.eq_false_iff.mpr hfe
      rw [commitEpisode_eq_some_ok labellerId now fail st fs es issued label hE hfe']
        at h ⊢
      obtain ⟨h1, h2, h3⟩ := commitFrames_errorStep now fail st fs
        (some (episodeRowOf labellerId now label)) (issued ++ [CommitStep.episodeUpsert]) s h
      exact ⟨h1, Or.inr ⟨h2, Or.inr h3⟩⟩

/-- C1: whenever `handleSaveAllLabels` throws at the frame-deletion,
episode-upsert, or frame-upsert step, the React edit-cache state
(episode draft, frame drafts, pending-deletion set, dirty flag) is
exactly what it was at invocation — no reset to a committed baseline —
and no step after the failing one is issued. -/
theorem commit_failure_keeps_cache (labellerId now : String) (fail : StepFailures)
    (st : ViewerState) (fs : List FrameRow) (es : Option EpisodeRow) (s : CommitStep)
    (h : (handleSaveAllLabels labellerId now fail st fs es).errorStep = some s) :
    (handleSaveAllLabels labellerId now fail st fs es).state = st ∧
    ∀ t ∈ (handleSaveAllLabels labellerId now fail st fs es).issued,
      stepIndex t ≤ stepIndex s := by
  by_cases hd : st.deletedFrameIndices.length > 0
  · by_cases hf : fail.frameDelete = true
    · rw [handleSave_eq_delete_fail labellerId now fail st fs es hd hf] at h ⊢
      have hs : s = CommitStep.frameDelete := by
        injection h with h''
        exact h''.symm
      subst hs
      refine ⟨rfl, ?_⟩
      intro t ht
      fin_cases ht <;> decide
    · have hf' : fail.frameDelete = false := Bool.eq_false_iff.mpr hf
      rw [handleSave_eq_deleted labellerId now fail st fs es hd hf'] at h ⊢
      obtain ⟨h1, hcase⟩ := commitEpisode_errorStep labellerId now fail st
        (deleteFrameRows labellerId st.deletedFrameIndices fs) es
        [CommitStep.labellerUpsert, CommitStep.frameDelete] s h
      refine ⟨h1, ?_⟩
      rcases hcase with ⟨rfl, hiss⟩ | ⟨rfl, hiss | hiss⟩ <;> rw [hiss] <;>
        intro t ht <;> fin_cases ht <;> decide
  · rw [handleSave_eq_nodelete labellerId now fail st fs es hd] at h ⊢
    obtain ⟨h1, hcase⟩ := commitEpisode_errorStep labellerId now fail st fs es
      [CommitStep.labellerUpsert] s h
    refine ⟨h1, ?_⟩
    rcases hcase with ⟨rfl, hiss⟩ | ⟨rfl, hiss | hiss⟩ <;> rw [hiss] <;>
      intro t ht <;> fin_cases ht <;> decide

/-- Witness for C1: a commit whose episode-upsert step fails leaves
the concrete dirty cache untouched and issues nothing past step 3. -/
theorem commit_failure_keeps_cache_witness :
    (handleSaveAllLabels "lab" "t0" ⟨false, false, true, false⟩
        ⟨some ⟨"o", "d", "0", "lab", none, [], [("cup", 1)], none, "", none⟩,
          [], true, []⟩ [] none).state
      = ⟨some ⟨"o", "d", "0", "lab", none, [], [("cup", 1)], none, "", none⟩,
          [], true, []⟩ ∧
    ∀ t ∈ (handleSaveAllLabels "lab" "t0" ⟨false, false, true, false⟩
        ⟨some ⟨"o", "d", "0", "lab", none, [], [("cup", 1)], none, "", none⟩,
          [], true, []⟩ [] none).issued,
      stepIndex t ≤ stepIndex CommitStep.episodeUpsert :=
  commit_failure_keeps_cache "lab" "t0" ⟨false, false, true, false⟩
    ⟨some ⟨"o", "d", "0", "lab", none, [], [("cup", 1)], none, "", none⟩, [], true, []⟩
    [] none CommitStep.episodeUpsert (by decide)

theorem commitFrames_episodeStore (now : String) (fail : StepFailures) (st : ViewerState)
    (fs : List FrameRow) (es : Option EpisodeRow) (issued : List CommitStep) :
    (commitFrames now fail st fs es issued).episodeStore = es := by
  unfold commitFrames
  split_ifs <;> rfl

theorem commitEpisode_episodeStore_some (labellerId now : String) (fail : StepFailures)
    (st : ViewerState) (fs : List FrameRow) (es : Option EpisodeRow)
    (issued : List CommitStep) (lbl : EpisodeLabel)
    (hE : st.episodeLabel = some lbl) (hfe : fail.episodeUpsert = false) :
    (commitEpisode labellerId now fail st fs es issued).episodeStore
      = some (episodeRowOf labellerId now lbl) := by
  rw [commitEpisode_eq_some_ok labellerId now fail st fs es issued lbl hE hfe]
  exact commitFrames_episodeStore now fail st fs _ _

theorem litterItemsToSave_pos (items : List (String × Int)) :
    ∀ q ∈ (litterItemsToSave items).getD [], 0 < q.2 := by
  intro q hq
  unfold litterItemsToSave litterItemsFiltered at hq
  by_cases hf : (items.filter (fun p => p.2 > 0)).length > 0
  · simp only [hf, if_true, Option.getD_some] at hq
    have := (List.mem_filter.mp hq).2
    exact of_decide_eq_true this
  · simp only [hf, if_false, Option.getD_none] at hq
    exact absurd hq (List.not_mem_nil q)

/-- C7: a commit persists the episode draft's litter-item map with all
entries of quantity ≤ 0 removed — the stored map holds only strictly
positive quantities — and stores the explicit `null` marker instead of
an empty map when nothing positive remains. -/
theorem commit_strips_nonpositive_litter (labellerId now : String) (st : ViewerState)
    (fs : List FrameRow) (es : Option EpisodeRow) (lbl : EpisodeLabel)
    (h : st.episodeLabel = some lbl) :
    (handleSaveAllLabels labellerId now noFailures st fs es).episodeStore
        = some (episodeRowOf labellerId now lbl) ∧
    (episodeRowOf labellerId now lbl).litter_items
        = (if lbl.litterItems.filter (fun p => !(decide (p.2 ≤ 0))) = []
           then none
           else some (lbl.litterItems.filter (fun p => !(decide (p.2 ≤ 0))))) ∧
    ∀ q ∈ ((episodeRowOf labellerId now lbl).litter_items.getD []), 0 < q.2 := by
  have hfilters : lbl.litterItems.filter (fun p => p.2 > 0)
      = lbl.litterItems.filter (fun p => !(decide (p.2 ≤ 0))) := by
    apply List.filter_congr
    intro x _
    rw [show (decide (x.2 > 0)) = decide (¬(x.2 ≤ 0)) from
      decide_eq_decide.mpr not_le.symm, decide_not]
  refine ⟨?_, ?_, ?_⟩
  · by_cases hd : st.deletedFrameIndices.length > 0
    · rw [handleSave_eq_deleted labellerId now noFailures st fs es hd rfl]
      exact commitEpisode_episodeStore_some labellerId now noFailures st _ es _ lbl h rfl
    · rw [handleSave_eq_nodelete labellerId now noFailures st fs es hd]
      exact commitEpisode_episodeStore_some labellerId now noFailures st fs es _ lbl h rfl
  · show litterItemsToSave lbl.litterItems = _
    unfold litterItemsToSave litterItemsFiltered
    rw [hfilters]
    by_cases hf0 : lbl.litterItems.filter (fun p => !(decide (p.2 ≤ 0))) = []
    · simp [hf0]
    · have hlen : (lbl.litterItems.filter (fun p => !(decide (p.2 ≤ 0)))).length > 0 :=
        List.length_pos.mpr hf0
      simp [hf0, hlen]
  · exact litterItemsToSave_pos lbl.litterItems

/-- Witness for C7: committing a draft whose item map is
`[("cup", 2), ("bag", 0), ("can", -1)]` persists exactly
`[("cup", 2)]`, every stored quantity positive. -/
theorem commit_strips_nonpositive_litter_witness :
    (handleSaveAllLabels "lab" "t0" noFailures
        ⟨some ⟨"o", "d", "0", "lab", none, [], [("cup", 2), ("bag", 0), ("can", -1)],
          none, "", none⟩, [], true, []⟩ [] none).episodeStore
      = some (episodeRowOf "lab" "t0"
          ⟨"o", "d", "0", "lab", none, [], [("cup", 2), ("bag", 0), ("can", -1)],
            none, "", none⟩) ∧
    (episodeRowOf "lab" "t0"
        ⟨"o", "d", "0", "lab", none, [], [("cup", 2), ("bag", 0), ("can", -1)],
          none, "", none⟩).litter_items
      = (if ([("cup", 2), ("bag", 0), ("can", -1)] :
            List (String × Int)).filter (fun p => !(decide (p.2 ≤ 0))) = []
         then none
         else some (([("cup", 2), ("bag", 0), ("can", -1)] :
            List (String × Int)).filter (fun p => !(decide (p.2 ≤ 0))))) ∧
    ∀ q ∈ ((episodeRowOf "lab" "t0"
        ⟨"o", "d", "0", "lab", none, [], [("cup", 2), ("bag", 0), ("can", -1)],
          none, "", none⟩).litter_items.getD []), 0 < q.2 :=
  commit_strips_nonpositive_litter "lab" "t0"
    ⟨some ⟨"o", "d", "0", "lab", none, [], [("cup", 2), ("bag", 0), ("can", -1)],
      none, "", none⟩, [], true, []⟩ [] none
    ⟨"o", "d", "0", "lab", none, [], [("cup", 2), ("bag", 0), ("can", -1)],
      none, "", none⟩ rfl

theorem find?_upsert_replace_self (s : List FrameRow) (row : FrameRow) :
    (s.map (fun r => if r.frame_idx == row.frame_idx then row else r)).find?
        (fun r => r.frame_idx == row.frame_idx)
      = if s.any (fun r => r.frame_idx == row.frame_idx) then some row else none := by
  induction s with
  | nil => simp
  | cons r rest ih =>
    cases hr : (r.frame_idx == row.frame_idx) with
    | true =>
      rw [List.map_cons, if_pos hr, List.find?_cons_of_pos _ (by simp)]
      simp [List.any_cons, hr]
    | false =>
      rw [List.map_cons, if_neg (by simp [hr]),
        List.find?_cons_of_neg _ (by simp [hr]), ih, List.any_cons, hr, Bool.false_or]

theorem frameStoreGet_upsertFrameRow_self (s : List FrameRow) (row : FrameRow) :
    frameStoreGet (upsertFrameRow s row) row.frame_idx = some row := by
  unfold frameStoreGet upsertFrameRow
  by_cases h : s.any (fun r => r.frame_idx == row.frame_idx)
  · rw [if_pos h, find?_upsert_replace_self, if_pos h]
  · rw [if_neg h, List.find?_append]
    have hnone : s.find? (fun r => r.frame_idx == row.frame_idx) = none := by
      rw [List.find?_eq_none]
      intro r hr hrk
      exact h (List.any_of_mem hr hrk)
    rw [hnone, List.find?_cons_of_pos _ (by simp)]
    rfl

theorem frameStoreGet_upsertFrameRows_last (rows : List FrameRow) (row : FrameRow)
    (s : List FrameRow) :
    frameStoreGet (upsertFrameRows (rows ++ [row]) s) row.frame_idx = some row := by
  unfold upsertFrameRows
  rw [List.foldl_append]
  simp only [List.foldl_cons, List.foldl_nil]
  exact frameStoreGet_upsertFrameRow_self _ row

theorem findIdx?_filter_ne (xs : List FrameLabel) (i : Int) :
    ∀ n : Nat,
      (xs.filter (fun l => l.frameIdx != i)).findIdx? (fun l => l.frameIdx == i) n
        = none := by
  induction xs with
  | nil => intro n; rfl
  | cons x rest ih =>
    intro n
    by_cases hx : x.frameIdx == i
    · rw [List.filter_cons, if_neg (by simp [bne, hx])]
      exact ih n
    · have hx' : (x.frameIdx == i) = false := Bool.eq_false_iff.mpr hx
      rw [List.filter_cons, if_pos (by simp [bne, hx']), List.findIdx?_cons,
        if_neg (by simp [hx'])]
      exact ih (n + 1)

theorem save_after_delete_frameLabels (st : ViewerState) (i : Int) (label : FrameLabel)
    (hl : label.frameIdx = i) :
    (onFrameLabelSave label (onFrameLabelDelete i st)).frameLabels
      = (st.frameLabels.filter (fun l => l.frameIdx != i)) ++ [label] := by
  show (match (st.frameLabels.filter (fun l => l.frameIdx != i)).findIdx?
        (fun l => l.frameIdx == label.frameIdx) with
      | none => (st.frameLabels.filter (fun l => l.frameIdx != i)) ++ [label]
      | some idx => (st.frameLabels.filter (fun l => l.frameIdx != i)).set idx label)
    = (st.frameLabels.filter (fun l => l.frameIdx != i)) ++ [label]
  rw [hl, findIdx?_filter_ne st.frameLabels i 0]

theorem onFrameLabelDelete_deleted_nonempty (i : Int) (st : ViewerState) :
    (onFrameLabelDelete i st).deletedFrameIndices.length > 0 := by
  show (if i ∈ st.deletedFrameIndices then st.deletedFrameIndices
      else st.deletedFrameIndices ++ [i]).length > 0
  by_cases hmem : i ∈ st.deletedFrameIndices
  · rw [if_pos hmem]
    exact List.length_pos.mpr (List.ne_nil_of_mem hmem)
  · rw [if_neg hmem]
    simp

theorem handleSave_noFail_frameStore (labellerId now : String) (st : ViewerState)
    (fs : List FrameRow) (es : Option EpisodeRow) (hlen : st.frameLabels.length > 0) :
    (handleSaveAllLabels labellerId now noFailures st fs es).errorStep = none ∧
    (handleSaveAllLabels labellerId now noFailures st fs es).frameStore
      = upsertFrameRows (st.frameLabels.map (frameRowOf now))
          (if st.deletedFrameIndices.length > 0
           then deleteFrameRows labellerId st.deletedFrameIndices fs else fs) := by
  by_cases hd : st.deletedFrameIndices.length > 0
  · rw [handleSave_eq_deleted labellerId now noFailures st fs es hd rfl, if_pos hd]
    cases hE : st.episodeLabel with
    | none =>
      rw [commitEpisode_eq_none labellerId now noFailures st _ es _ hE,
        commitFrames_eq_ok now noFailures st _ es _ hlen rfl]
      exact ⟨rfl, rfl⟩
    | some lbl =>
      rw [commitEpisode_eq_some_ok labellerId now noFailures st _ es _ lbl hE rfl,
        commitFrames_eq_ok now noFailures st _ _ _ hlen rfl]
      exact ⟨rfl, rfl⟩
  · rw [handleSave_eq_nodelete labellerId now noFailures st fs es hd, if_neg hd]
    cases hE : st.episodeLabel with
    | none =>
      rw [commitEpisode_eq_none labellerId now noFailures st fs es _ hE,
        commitFrames_eq_ok now noFailures st fs es _ hlen rfl]
      exact ⟨rfl, rfl⟩
    | some lbl =>
      rw [commitEpisode_eq_some_ok labellerId now noFailures st fs es _ lbl hE rfl,
        commitFrames_eq_ok now noFailures st fs _ _ hlen rfl]
      exact ⟨rfl, rfl⟩

/-- C3: after `deleteFrame i` followed by `setFrameField i`, a
successful commit leaves frame `i` present in the store with the
edited record — the bulk delete of pending deletions runs before the
bulk upsert of the frame drafts, so the upsert of frame `i` is the
last write. -/
theorem commit_after_delete_then_edit (labellerId now : String) (st : ViewerState)
    (fs : List FrameRow) (es : Option EpisodeRow) (i : Int) (label : FrameLabel)
    (hl : label.frameIdx = i) :
    (handleSaveAllLabels labellerId now noFailures
        (onFrameLabelSave label (onFrameLabelDelete i st)) fs es).errorStep = none ∧
    frameStoreGet
        (handleSaveAllLabels labellerId now noFailures
          (onFrameLabelSave label (onFrameLabelDelete i st)) fs es).frameStore i
      = some (frameRowOf now label) := by
  have hframes : (onFrameLabelSave label (onFrameLabelDelete i st)).frameLabels
      = (st.frameLabels.filter (fun l => l.frameIdx != i)) ++ [label] :=
    save_after_delete_frameLabels st i label hl
  have hlen : (onFrameLabelSave label (onFrameLabelDelete i st)).frameLabels.length > 0 := by
    rw [hframes]
    simp
  obtain ⟨herr, hstore⟩ := handleSave_noFail_frameStore labellerId now
    (onFrameLabelSave label (onFrameLabelDelete i st)) fs es hlen
  refine ⟨herr, ?_⟩
  rw [hstore, hframes, List.map_append]
  have hidx : (frameRowOf now label).frame_idx = i := hl
  rw [← hidx]
  exact frameStoreGet_upsertFrameRows_last _ (frameRowOf now label) _

/-- Witness for C3: deleting frame 5 and then re-labelling it commits
with frame 5 stored as the edited record. -/
theorem commit_after_delete_then_edit_witness :
    (handleSaveAllLabels "lab" "t0" noFailures
        (onFrameLabelSave ⟨5, "lab", none, [], "kept", none⟩
          (onFrameLabelDelete 5 ⟨none, [], false, []⟩))
        [⟨5, "lab", none, [], "old", "t"⟩] none).errorStep = none ∧
    frameStoreGet
        (handleSaveAllLabels "lab" "t0" noFailures
          (onFrameLabelSave ⟨5, "lab", none, [], "kept", none⟩
            (onFrameLabelDelete 5 ⟨none, [], false, []⟩))
          [⟨5, "lab", none, [], "old", "t"⟩] none).frameStore 5
      = some (frameRowOf "t0" ⟨5, "lab", none, [], "kept", none⟩) :=
  commit_after_delete_then_edit "lab" "t0" ⟨none, [], false, []⟩
    [⟨5, "lab", none, [], "old", "t"⟩] none 5 ⟨5, "lab", none, [], "kept", none⟩ rfl

theorem extract_eq_some_of_split (i : Int) (m : List (Int × EpisodeMetadata))
    (md : EpisodeMetadata) (rid : String) (e : Int)
    (hmap : mapGet m i = some md) (hrid : md.source_repo_id = some rid)
    (he : md.source_episode_index = some e) (hlen : 2 ≤ (splitSlash rid).length) :
    extractSourceInfo i m
      = some ⟨(splitSlash rid).headD "", joinSlash (splitSlash rid).tail, e⟩ := by
  have hne : rid ≠ "" := by
    intro hr
    subst hr
    exact absurd hlen (by decide)
  simp only [extractSourceInfo, hmap, hrid, he]
  rw [if_neg hne]
  unfold parseSourceRepoId
  rw [if_neg hne, if_neg (by omega)]

theorem extract_eq_none_of_short (i : Int) (m : List (Int × EpisodeMetadata))
    (md : EpisodeMetadata) (rid : String) (e : Int)
    (hmap : mapGet m i = some md) (hrid : md.source_repo_id = some rid)
    (he : md.source_episode_index = some e) (hlen : (splitSlash rid).length < 2) :
    extractSourceInfo i m = none := by
  simp only [extractSourceInfo, hmap, hrid, he]
  by_cases hne : rid = ""
  · rw [if_pos hne]
  · rw [if_neg hne]
    unfold parseSourceRepoId
    rw [if_neg hne, if_pos hlen]

theorem extract_eq_none_of_missing (i : Int) (m : List (Int × EpisodeMetadata))
    (md : EpisodeMetadata) (hmap : mapGet m i = some md)
    (h : md.source_repo_id = none ∨ md.source_episode_index = none) :
    extractSourceInfo i m = none := by
  rcases h with hrid | he
  · simp only [extractSourceInfo, hmap, hrid]
  · cases hrid : md.source_repo_id with
    | none => simp only [extractSourceInfo, hmap, hrid]
    | some rid => simp only [extractSourceInfo, hmap, hrid, he]

/-- C8 (amended): for entries carrying both source fields whose
`source_repo_id` splits into at least two `/`-separated segments,
resolution takes the first segment as the org, rejoins the rest as the
dataset, and takes `source_episode_index` as the episode; a slash-free
`source_repo_id` also yields the pass-through `none`, as does an entry
lacking either source field. -/
theorem extractSourceInfo_split :
    (∀ (i : Int) (m : List (Int × EpisodeMetadata)) (md : EpisodeMetadata)
        (rid : String) (e : Int),
      mapGet m i = some md → md.source_repo_id = some rid →
      md.source_episode_index = some e → 2 ≤ (splitSlash rid).length →
      extractSourceInfo i m
        = some ⟨(splitSlash rid).headD "", joinSlash (splitSlash rid).tail, e⟩) ∧
    (∀ (i : Int) (m : List (Int × EpisodeMetadata)) (md : EpisodeMetadata)
        (rid : String) (e : Int),
      mapGet m i = some md → md.source_repo_id = some rid →
      md.source_episode_index = some e → (splitSlash rid).length < 2 →
      extractSourceInfo i m = none) ∧
    (∀ (i : Int) (m : List (Int × EpisodeMetadata)) (md : EpisodeMetadata),
      mapGet m i = some md →
      md.source_repo_id = none ∨ md.source_episode_index = none →
      extractSourceInfo i m = none) :=
  ⟨extract_eq_some_of_split, extract_eq_none_of_short, extract_eq_none_of_missing⟩

/-- Witness for C8: the spec's own example —
`{episode_index: 3, source_repo_id: "orgA/sub/dataset",
source_episode_index: 9}` resolves episode 3 to
`{org: "orgA", dataset: "sub/dataset", episode: 9}`. -/
theorem extractSourceInfo_split_witness :
    extractSourceInfo 3 [(3, ⟨some 3, none, none, some 9, some "orgA/sub/dataset"⟩)]
      = some ⟨(splitSlash "orgA/sub/dataset").headD "",
          joinSlash (splitSlash "orgA/sub/dataset").tail, 9⟩ :=
  extractSourceInfo_split.1 3
    [(3, ⟨some 3, none, none, some 9, some "orgA/sub/dataset"⟩)]
    ⟨some 3, none, none, some 9, some "orgA/sub/dataset"⟩
    "orgA/sub/dataset" 9 rfl rfl rfl (by decide)

/-- C8 (counterexample): an entry carrying both source fields whose
`source_repo_id` has no slash — `"orgonly"` with
`source_episode_index` 7 — resolves to `none`, not to the
org/dataset/episode triple the claim's split description yields. -/
theorem extractSourceInfo_single_segment_cex :
    extractSourceInfo 3 [(3, ⟨some 3, none, none, some 7, some "orgonly"⟩)] = none ∧
    ¬ (extractSourceInfo 3 [(3, ⟨some 3, none, none, some 7, some "orgonly"⟩)]
        = some ⟨"orgonly", "", 7⟩) := by
  decide

/-- C9 (counterexample): `source_repo_id = "/b"` has an empty org
segment, yet `extractSourceInfo` treats the episode as derived and
returns `some {org := "", dataset := "b"}` instead of the claimed
pass-through `none`. -/
theorem extractSourceInfo_empty_org_cex :
    extractSourceInfo 0 [(0, ⟨some 0, none, none, some 0, some "/b"⟩)]
      = some ⟨"", "b", 0⟩ := by
  decide

/-- C9 (amended): an episode with a lineage entry is treated as
derived (non-null `SourceInfo`) iff both source fields are present and
`source_repo_id` splits into at least two `/`-separated segments —
emptiness of the org or dataset segments is not checked. -/
theorem extractSourceInfo_derived_iff (i : Int) (m : List (Int × EpisodeMetadata))
    (md : EpisodeMetadata) (hmap : mapGet m i = some md) :
    (extractSourceInfo i m).isSome = true ↔
      ∃ rid e, md.source_repo_id = some rid ∧ md.source_episode_index = some e ∧
        2 ≤ (splitSlash rid).length := by
  constructor
  · intro hsome
    cases hrid : md.source_repo_id with
    | none =>
      rw [extract_eq_none_of_missing i m md hmap (Or.inl hrid)] at hsome
      exact absurd hsome (by simp)
    | some rid =>
      cases he : md.source_episode_index with
      | none =>
        rw [extract_eq_none_of_missing i m md hmap (Or.inr he)] at hsome
        exact absurd hsome (by simp)
      | some e =>
        refine ⟨rid, e, rfl, rfl, ?_⟩
        by_contra hlt
        push_neg at hlt
        rw [extract_eq_none_of_short i m md rid e hmap hrid he hlt] at hsome
        exact absurd hsome (by simp)
  · rintro ⟨rid, e, hrid, he, hlen⟩
    rw [extract_eq_some_of_split i m md rid e hmap hrid he hlen]
    rfl

/-- Witness for C9: `source_repo_id = "a/b"` with
`source_episode_index = 5` is derived. -/
theorem extractSourceInfo_derived_iff_witness :
    (extractSourceInfo 1 [(1, ⟨some 1, none, none, some 5, some "a/b"⟩)]).isSome = true :=
  (extractSourceInfo_derived_iff 1 [(1, ⟨some 1, none, none, some 5, some "a/b"⟩)]
    ⟨some 1, none, none, some 5, some "a/b"⟩ rfl).mpr
    ⟨"a/b", 5, rfl, rfl, by decide⟩

/-- Specification-side description for C10, compared against
`parseEpisodesJsonl`: the metadata of the last document line carrying
episode index `k`, if any. -/
def lastEntryWith (entries : List (Int × EpisodeMetadata)) (k : Int) :
    Option EpisodeMetadata :=
  (entries.reverse.find? (fun p => p.1 == k)).map (fun p => p.2)

theorem option_map_or {α β : Type} (f : α → β) (a b : Option α) :
    (a.or b).map f = (a.map f).or (b.map f) := by
  cases a <;> simp

theorem lastEntryWith_cons (es : List (Int × EpisodeMetadata))
    (p : Int × EpisodeMetadata) (k : Int) :
    lastEntryWith (p :: es) k
      = (lastEntryWith es k).or (if p.1 == k then some p.2 else none) := by
  unfold lastEntryWith
  rw [List.reverse_cons, List.find?_append, option_map_or]
  cases hp : (p.1 == k) with
  | true =>
    rw [List.find?_cons_of_pos (p := fun q : Int × EpisodeMetadata => q.1 == k) _ hp]
    simp
  | false =>
    rw [List.find?_cons_of_neg (p := fun q : Int × EpisodeMetadata => q.1 == k) _
      (by simp [hp])]
    simp

theorem parse_fold_mapGet (k : Int) :
    ∀ (lines : List (Option EpisodeMetadata)) (acc : List (Int × EpisodeMetadata)),
      mapGet (lines.foldl jsonlStep acc) k
        = (lastEntryWith (jsonlEntries lines) k).or (mapGet acc k) := by
  intro lines
  induction lines with
  | nil =>
    intro acc
    simp [jsonlEntries, lastEntryWith]
  | cons line rest ih =>
    intro acc
    rw [List.foldl_cons, ih (jsonlStep acc line)]
    cases line with
    | none =>
      simp only [jsonlEntries, List.filterMap_cons]
      rfl
    | some md =>
      cases hidx : md.episode_index with
      | none =>
        simp only [jsonlEntries, List.filterMap_cons, hidx]
        have hstep : jsonlStep acc (some md) = acc := by
          simp only [jsonlStep, hidx]
        rw [hstep]
      | some q =>
        simp only [jsonlEntries, List.filterMap_cons, hidx]
        have hstep : jsonlStep acc (some md) = mapSet acc q md := by
          simp only [jsonlStep, hidx]
        rw [hstep, lastEntryWith_cons, Option.or_assoc]
        by_cases hk : k = q
        · subst hk
          rw [mapGet_mapSet_self]
          simp
        · rw [mapGet_mapSet_ne acc q k md hk]
          have hq : (q == k) = false := by
            simp [Ne.symm hk]
          rw [hq, if_neg (by simp), Option.none_or]

/-- C10: `parseEpisodesJsonl` drops every well-formed line lacking an
`episode_index` field, and when several lines share an
`episode_index`, the resulting mapping holds the record from the last
such line in document order. -/
theorem parseEpisodesJsonl_spec :
    (∀ (pre post : List (Option EpisodeMetadata)) (md : EpisodeMetadata),
       md.episode_index = none →
       parseEpisodesJsonl (pre ++ some md :: post) = parseEpisodesJsonl (pre ++ post)) ∧
    (∀ (lines : List (Option EpisodeMetadata)) (k : Int),
       mapGet (parseEpisodesJsonl lines) k = lastEntryWith (jsonlEntries lines) k) := by
  constructor
  · intro pre post md hmd
    unfold parseEpisodesJsonl
    rw [List.foldl_append, List.foldl_append, List.foldl_cons]
    congr 1
    simp only [jsonlStep, hmd]
  · intro lines k
    unfold parseEpisodesJsonl
    rw [parse_fold_mapGet k lines []]
    simp [mapGet]

/-- Witness for C10: a line without `episode_index` is dropped, and of
two lines with index 1 the later record (the one carrying lineage
fields) wins. -/
theorem parseEpisodesJsonl_spec_witness :
    parseEpisodesJsonl
        [some ⟨some 1, none, none, none, none⟩,
         some ⟨none, none, some 5, none, none⟩,
         some ⟨some 1, none, none, some 2, some "o/d"⟩]
      = parseEpisodesJsonl
        [some ⟨some 1, none, none, none, none⟩,
         some ⟨some 1, none, none, some 2, some "o/d"⟩] ∧
    mapGet (parseEpisodesJsonl
        [some ⟨some 1, none, none, none, none⟩,
         some ⟨some 1, none, none, some 2, some "o/d"⟩]) 1
      = lastEntryWith (jsonlEntries
        [some ⟨some 1, none, none, none, none⟩,
         some ⟨some 1, none, none, some 2, some "o/d"⟩]) 1 :=
  ⟨parseEpisodesJsonl_spec.1 [some ⟨some 1, none, none, none, none⟩]
      [some ⟨some 1, none, none, some 2, some "o/d"⟩]
      ⟨none, none, some 5, none, none⟩ rfl,
    parseEpisodesJsonl_spec.2
      [some ⟨some 1, none, none, none, none⟩,
       some ⟨some 1, none, none, some 2, some "o/d"⟩] 1⟩

end LerobotViz
